import Mathlib

/-!
# Verification of the gemini-proxy credential-management and request pipeline

Shallow embedding, in Lean 4, of the core functions of the gemini-proxy
repository, together with theorems settling the frozen claims about its
specification.  Each definition is translated from the JavaScript source:

* `src/unnamed/part_005`        — `CircuitBreaker` (per-host breaker)
* `src/src/utils/fetch-retry.js`— `fetchWithRetry` (breaker-integrated revision)
* `src/src/services/cache-service.js` — `CacheService.generateCacheKey`
* `src/src/core/api-key-manager.js`   — `ApiKeyManager.getNextKey`
* `src/src/core/request-handler.js`   — `generateRequestKey`
* `src/src/utils/auth.js`       — `extractAuthKey`
* `src/src/services/translation-service.js` — `translateSingleText`,
  `translateBatch`

JavaScript machine behaviour is made explicit: strings are Lean `String`s,
`.length` of a JS string becomes a UTF-16 code-unit count, `TextEncoder`
becomes an explicit UTF-8 encoder, 32-bit arithmetic is `Nat` arithmetic
taken `% 2^32`, fallible operations return `Option`/`Except`, and the
upstream network, the KV store and the event-loop are oracles supplied as
function arguments.
-/

set_option maxRecDepth 4000

namespace GeminiProxy

/-! ## JavaScript string primitives -/

/-- The character class matched by JavaScript `\s` and trimmed by
`String.prototype.trim`. -/
def isJsWhitespace (c : Char) : Bool :=
  let n := c.toNat
  n == 9 || n == 10 || n == 11 || n == 12 || n == 13 || n == 32 ||
  n == 160 || n == 5760 || (8192 ≤ n && n ≤ 8202) || n == 8232 ||
  n == 8233 || n == 8239 || n == 8287 || n == 12288 || n == 65279

/-- JavaScript `String.prototype.trim`. -/
def jsTrim (s : String) : String :=
  ⟨((s.data.dropWhile isJsWhitespace).reverse.dropWhile isJsWhitespace).reverse⟩

/-- ASCII lower-casing, as used by a case-insensitive regex match. -/
def toLowerAscii (c : Char) : Char :=
  if c.toNat ≥ 65 && c.toNat ≤ 90 then Char.ofNat (c.toNat + 32) else c

/-- JavaScript `x || d` for a possibly null/undefined string `x`
(`none` models null/undefined; the empty string is also falsy). -/
def jsOr (o : Option String) (d : String) : String :=
  match o with
  | none => d
  | some "" => d
  | some s => s

/-- UTF-8 encoding of one Unicode scalar value (JS `TextEncoder`, per char). -/
def utf8Char (c : Char) : List Nat :=
  let n := c.toNat
  if n < 128 then [n]
  else if n < 2048 then [192 + n / 64, 128 + n % 64]
  else if n < 65536 then [224 + n / 4096, 128 + n / 64 % 64, 128 + n % 64]
  else [240 + n / 262144, 128 + n / 4096 % 64, 128 + n / 64 % 64, 128 + n % 64]

/-- JS `new TextEncoder().encode(s)`: the UTF-8 bytes of `s`. -/
def utf8Encode (s : String) : List Nat :=
  s.data.flatMap utf8Char

/-- JS `s.length`: the number of UTF-16 code units of `s` (supplementary-plane
characters count twice). -/
def utf16Length (s : String) : Nat :=
  (s.data.map (fun c => if c.toNat ≥ 65536 then 2 else 1)).sum

/-! ## Hex and base64url encodings -/

/-- One lower-case hex digit. -/
def hexDigit (n : Nat) : Char :=
  if n < 10 then Char.ofNat (48 + n) else Char.ofNat (87 + n)

/-- JS `b.toString(16).padStart(2, '0')` for a byte `b`. -/
def byteToHex2 (b : Nat) : List Char :=
  [hexDigit (b / 16 % 16), hexDigit (b % 16)]

/-- Hex string of a byte sequence (`hashArray.map(...).join('')`). -/
def hexOfBytes (bs : List Nat) : String :=
  ⟨bs.flatMap byteToHex2⟩

/-- The url-safe base64 alphabet (standard alphabet with `+`,`/` replaced by
`-`,`_`, as done by the source's `.replace` chain). -/
def b64Char (n : Nat) : Char :=
  if n < 26 then Char.ofNat (65 + n)
  else if n < 52 then Char.ofNat (97 + (n - 26))
  else if n < 62 then Char.ofNat (48 + (n - 52))
  else if n = 62 then Char.ofNat 45
  else Char.ofNat 95

/-- Base64 of a byte sequence, 3 bytes at a time; the incomplete final group
is encoded without padding (the source strips `=` with `.replace(/=/g,'')`). -/
def base64urlChars : List Nat → List Char
  | [] => []
  | [b0] => [b64Char (b0 / 4), b64Char (b0 % 4 * 16)]
  | [b0, b1] => [b64Char (b0 / 4), b64Char (b0 % 4 * 16 + b1 / 16),
                 b64Char (b1 % 16 * 4)]
  | b0 :: b1 :: b2 :: rest =>
      b64Char (b0 / 4) :: b64Char (b0 % 4 * 16 + b1 / 16) ::
      b64Char (b1 % 16 * 4 + b2 / 64) :: b64Char (b2 % 64) ::
      base64urlChars rest

/-- JS `btoa(String.fromCharCode(...bytes))` followed by the url-safe
replacements and padding removal. -/
def base64url (bs : List Nat) : String :=
  ⟨base64urlChars bs⟩

/-! ## SHA-1 (`crypto.subtle.digest('SHA-1', ...)`)

32-bit words are `Nat`s kept below `2^32`; every operation that could
overflow is taken `% 4294967296`. -/

/-- Left-rotation of a 32-bit word. -/
def rotl32 (n x : Nat) : Nat :=
  ((x <<< n) ||| (x >>> (32 - n))) % 4294967296

/-- SHA-1 padding: append `0x80`, zeros to 56 mod 64, and the 64-bit
big-endian bit length. -/
def sha1Pad (msg : List Nat) : List Nat :=
  let len := msg.length
  let zeros := (64 + 56 - (len + 1) % 64) % 64
  let bitLen := 8 * len
  msg ++ [128] ++ List.replicate zeros 0 ++
    [bitLen / 2 ^ 56 % 256, bitLen / 2 ^ 48 % 256, bitLen / 2 ^ 40 % 256,
     bitLen / 2 ^ 32 % 256, bitLen / 2 ^ 24 % 256, bitLen / 2 ^ 16 % 256,
     bitLen / 2 ^ 8 % 256, bitLen % 256]

/-- Big-endian 32-bit words of a byte list (length a multiple of 4). -/
def bytesToWords : List Nat → List Nat
  | b0 :: b1 :: b2 :: b3 :: rest =>
      (b0 * 2 ^ 24 + b1 * 2 ^ 16 + b2 * 2 ^ 8 + b3) :: bytesToWords rest
  | _ => []

/-- Extend 16 schedule words to 80.  `recent` holds the words produced so
far, most recent first; `k` more words are to be produced. -/
def sha1Extend (recent : List Nat) : Nat → List Nat
  | 0 => recent.reverse
  | k + 1 =>
      let w := rotl32 1 (((recent.getD 2 0) ^^^ (recent.getD 7 0)) ^^^
                         ((recent.getD 13 0) ^^^ (recent.getD 15 0)))
      sha1Extend (w :: recent) k

/-- The 80 SHA-1 rounds over one chunk's schedule. -/
def sha1Rounds : List Nat → Nat → Nat × Nat × Nat × Nat × Nat →
    Nat × Nat × Nat × Nat × Nat
  | [], _, st => st
  | w :: ws, i, (a, b, c, d, e) =>
      let f :=
        if i < 20 then (b &&& c) ||| ((b ^^^ 4294967295) &&& d)
        else if i < 40 then (b ^^^ c) ^^^ d
        else if i < 60 then ((b &&& c) ||| (b &&& d)) ||| (c &&& d)
        else (b ^^^ c) ^^^ d
      let k :=
        if i < 20 then 1518500249
        else if i < 40 then 1859775393
        else if i < 60 then 2400959708
        else 3395469782
      let temp := (rotl32 5 a + f + e + k + w) % 4294967296
      sha1Rounds ws (i + 1) (temp, a, rotl32 30 b, c, d)

/-- Process one 64-byte chunk, updating the running hash state. -/
def sha1Chunk (h : Nat × Nat × Nat × Nat × Nat) (chunk : List Nat) :
    Nat × Nat × Nat × Nat × Nat :=
  let ws := sha1Extend (bytesToWords chunk).reverse 64
  let (h0, h1, h2, h3, h4) := h
  let (a, b, c, d, e) := sha1Rounds ws 0 (h0, h1, h2, h3, h4)
  ((h0 + a) % 4294967296, (h1 + b) % 4294967296, (h2 + c) % 4294967296,
   (h3 + d) % 4294967296, (h4 + e) % 4294967296)

/-- Split a byte list into 64-byte chunks (`fuel` bounds the recursion so the
definition is structural; `chunks64` supplies `l.length`, which suffices). -/
def chunks64Aux : Nat → List Nat → List (List Nat)
  | 0, _ => []
  | _, [] => []
  | fuel + 1, b :: rest => (b :: rest.take 63) :: chunks64Aux fuel (rest.drop 63)

/-- Split a byte list into 64-byte chunks. -/
def chunks64 (l : List Nat) : List (List Nat) :=
  chunks64Aux l.length l

/-- Big-endian bytes of a 32-bit word. -/
def wordBytes (w : Nat) : List Nat :=
  [w / 2 ^ 24 % 256, w / 2 ^ 16 % 256, w / 2 ^ 8 % 256, w % 256]

/-- SHA-1 digest, 20 bytes, of a byte-sequence message. -/
def sha1 (msg : List Nat) : List Nat :=
  let init : Nat × Nat × Nat × Nat × Nat :=
    (1732584193, 4023233417, 2562383102, 271733878, 3285377520)
  let (h0, h1, h2, h3, h4) := (chunks64 (sha1Pad msg)).foldl sha1Chunk init
  wordBytes h0 ++ wordBytes h1 ++ wordBytes h2 ++ wordBytes h3 ++ wordBytes h4

/-! ## Circuit breaker (`src/unnamed/part_005`)

State machine of the `CircuitBreaker` class.  `Date.now()` is an explicit
`now` argument; the guarded async operation is an oracle outcome
(`success` when `fn()` resolves, `failure` when it rejects). -/

inductive CBState where
  | CLOSED
  | OPEN
  | HALF_OPEN
deriving DecidableEq, Repr

structure CircuitBreaker where
  failureThreshold : Nat
  successThreshold : Nat
  timeout : Nat
  failureCount : Nat
  successCount : Nat
  state : CBState
  nextAttempt : Nat
deriving DecidableEq, Repr

/-- The breaker built by `new CircuitBreaker()` with default options at
construction time `t0`. -/
def CircuitBreaker.mkDefault (t0 : Nat) : CircuitBreaker :=
  { failureThreshold := 5, successThreshold := 2, timeout := 60000,
    failureCount := 0, successCount := 0, state := .CLOSED, nextAttempt := t0 }

/-- `CircuitBreaker.onSuccess`. -/
def CircuitBreaker.onSuccess (b : CircuitBreaker) : CircuitBreaker :=
  let b := { b with failureCount := 0 }
  match b.state with
  | .HALF_OPEN =>
      let sc := b.successCount + 1
      if b.successThreshold ≤ sc then
        { b with state := .CLOSED, successCount := 0 }
      else
        { b with successCount := sc }
  | _ => b

/-- `CircuitBreaker.onFailure` (`Date.now()` is `now`). -/
def CircuitBreaker.onFailure (now : Nat) (b : CircuitBreaker) : CircuitBreaker :=
  let b := { b with successCount := 0, failureCount := b.failureCount + 1 }
  if b.failureThreshold ≤ b.failureCount then
    { b with state := .OPEN, nextAttempt := now + b.timeout }
  else b

inductive CallOutcome where
  | success
  | failure
deriving DecidableEq, Repr

inductive ExecResult where
  | rejected
  | returned
  | threw
deriving DecidableEq, Repr

/-- `CircuitBreaker.execute(fn)`: the OPEN gate, the OPEN → HALF_OPEN
transition, and the dispatch to `onSuccess`/`onFailure`. -/
def CircuitBreaker.executeStep (now : Nat) (oc : CallOutcome)
    (b : CircuitBreaker) : CircuitBreaker × ExecResult :=
  if b.state = CBState.OPEN ∧ now < b.nextAttempt then
    (b, .rejected)
  else
    let b := if b.state = CBState.OPEN then { b with state := .HALF_OPEN } else b
    match oc with
    | .success => (b.onSuccess, .returned)
    | .failure => (b.onFailure now, .threw)

structure CBEvent where
  now : Nat
  oc : CallOutcome
deriving DecidableEq, Repr

/-- A sequence of `execute` calls against one breaker. -/
def CircuitBreaker.run (b : CircuitBreaker) (evs : List CBEvent) :
    CircuitBreaker :=
  evs.foldl (fun b e => (CircuitBreaker.executeStep e.now e.oc b).1) b

/-- C1 (counterexample).  The claim states that in the HalfOpen state *every*
failed execution moves the breaker to Open — also after a prior HalfOpen
success.  It is false on the code: a default breaker driven to OPEN by five
failures at time 0 and probed successfully at time 60000 is in HALF_OPEN with
`failureCount = 0` (the success reset it); the next failed execution leaves it
in HALF_OPEN, because `onFailure` moves to OPEN only when the incremented
`failureCount` reaches `failureThreshold`. -/
theorem C1_counterexample :
    (CircuitBreaker.run (CircuitBreaker.mkDefault 0)
        (List.replicate 5 ⟨0, CallOutcome.failure⟩ ++
         [⟨60000, CallOutcome.success⟩])).state = CBState.HALF_OPEN ∧
    ((CircuitBreaker.run (CircuitBreaker.mkDefault 0)
        (List.replicate 5 ⟨0, CallOutcome.failure⟩ ++
         [⟨60000, CallOutcome.success⟩])).executeStep 60000
        CallOutcome.failure).1.state = CBState.HALF_OPEN := by
  decide

/-- C1 (amended).  A failed execution in the HalfOpen state always resets
`successCount` to 0 and increments `failureCount`; it transitions to Open with
`nextAttempt = now + timeout` exactly when the incremented `failureCount`
reaches `failureThreshold` (which holds on the first HalfOpen failure with no
intervening success, since entering HalfOpen keeps `failureCount` at or above
the threshold), and otherwise stays in HalfOpen. -/
theorem C1_amended (b : CircuitBreaker) (now : Nat)
    (h : b.state = CBState.HALF_OPEN) :
    ((b.executeStep now CallOutcome.failure).1.successCount = 0 ∧
     (b.executeStep now CallOutcome.failure).1.failureCount =
       b.failureCount + 1) ∧
    (b.failureThreshold ≤ b.failureCount + 1 →
      (b.executeStep now CallOutcome.failure).1.state = CBState.OPEN ∧
      (b.executeStep now CallOutcome.failure).1.nextAttempt =
        now + b.timeout) ∧
    (b.failureCount + 1 < b.failureThreshold →
      (b.executeStep now CallOutcome.failure).1.state = CBState.HALF_OPEN) := by
  obtain ⟨ft, sth, tmo, fc, sc, s, na⟩ := b
  have hs : s = CBState.HALF_OPEN := h
  subst hs
  simp only [CircuitBreaker.executeStep, CircuitBreaker.onFailure]
  split_ifs with h1 h2 h3 <;> simp_all

/-- C1 (witness for the amended theorem): a HalfOpen breaker one failure below
its threshold opens on failure; evaluated at a concrete state. -/
theorem C1_amended_witness :
    ((⟨5, 2, 60000, 4, 1, CBState.HALF_OPEN, 60000⟩ :
        CircuitBreaker).state = CBState.HALF_OPEN) ∧
    ((((⟨5, 2, 60000, 4, 1, CBState.HALF_OPEN, 60000⟩ :
        CircuitBreaker).executeStep 70000 CallOutcome.failure).1.successCount
        = 0 ∧
      ((⟨5, 2, 60000, 4, 1, CBState.HALF_OPEN, 60000⟩ :
        CircuitBreaker).executeStep 70000 CallOutcome.failure).1.failureCount
        = 5) ∧
     (5 ≤ 5 →
      (((⟨5, 2, 60000, 4, 1, CBState.HALF_OPEN, 60000⟩ :
        CircuitBreaker).executeStep 70000 CallOutcome.failure).1.state =
        CBState.OPEN ∧
       ((⟨5, 2, 60000, 4, 1, CBState.HALF_OPEN, 60000⟩ :
        CircuitBreaker).executeStep 70000 CallOutcome.failure).1.nextAttempt =
        130000)) ∧
     (5 < 5 →
      (((⟨5, 2, 60000, 4, 1, CBState.HALF_OPEN, 60000⟩ :
        CircuitBreaker).executeStep 70000 CallOutcome.failure).1.state =
        CBState.HALF_OPEN))) :=
  ⟨rfl, C1_amended ⟨5, 2, 60000, 4, 1, CBState.HALF_OPEN, 60000⟩ 70000 rfl⟩

/-! ## Retry executor (`src/src/utils/fetch-retry.js`, breaker-integrated
revision)

The attempt loop of `fetchWithRetry`.  Its environment is an oracle trace:
`keyAt k` is the result of the `k`-th `getApiKey()` call and `fetchAt j` the
outcome of the `j`-th guarded fetch — `thrown` covers a network error or a
breaker trip raised inside the `try` block, `resp status valid` a settled
response whose `validateResponse(response.clone())` evaluates to `valid`.
Backoff delays only suspend, so they are not modelled. -/

inductive FetchOutcome where
  | thrown
  | resp (status : Nat) (valid : Bool)
deriving DecidableEq, Repr

structure RetryTrace where
  keyAt : Nat → String
  fetchAt : Nat → FetchOutcome

structure RetryState where
  attempted : List String
  removed : List String
  skipped : Nat
  keyCalls : Nat
  fetches : Nat
  lastResponse : Option (Nat × Bool)
deriving DecidableEq, Repr

inductive RetryResult where
  | returned (r : Option (Nat × Bool))
  | threw
deriving DecidableEq, Repr

def initRetryState : RetryState :=
  { attempted := [], removed := [], skipped := 0, keyCalls := 0, fetches := 0,
    lastResponse := none }

/-- The body of `for (let i = 0; i < maxRetries; i++)`; `rem` counts the
iterations still available, so `rem = 0` inside an iteration means `i` was
the final index (where a thrown error is rethrown).  `attempted` is the
`usedKeys` set in insertion order; the `continue` after a repeated key feeds
the same `rem`-decremented recursion — one loop iteration is consumed. -/
def fetchLoop (tr : RetryTrace) : Nat → RetryState → RetryState × RetryResult
  | 0, st => (st, .returned st.lastResponse)
  | rem + 1, st =>
      if tr.keyAt st.keyCalls ∈ st.attempted then
        fetchLoop tr rem
          { st with keyCalls := st.keyCalls + 1, skipped := st.skipped + 1 }
      else
        match tr.fetchAt st.fetches with
        | .thrown =>
            if rem = 0 then
              ({ st with keyCalls := st.keyCalls + 1,
                         attempted := st.attempted ++ [tr.keyAt st.keyCalls],
                         fetches := st.fetches + 1 }, .threw)
            else
              fetchLoop tr rem
                { st with keyCalls := st.keyCalls + 1,
                          attempted := st.attempted ++ [tr.keyAt st.keyCalls],
                          fetches := st.fetches + 1 }
        | .resp status valid =>
            if status = 403 then
              fetchLoop tr rem
                { st with keyCalls := st.keyCalls + 1,
                          attempted := st.attempted ++ [tr.keyAt st.keyCalls],
                          fetches := st.fetches + 1,
                          lastResponse := some (status, valid),
                          removed := st.removed ++ [tr.keyAt st.keyCalls] }
            else if status = 429 then
              fetchLoop tr rem
                { st with keyCalls := st.keyCalls + 1,
                          attempted := st.attempted ++ [tr.keyAt st.keyCalls],
                          fetches := st.fetches + 1,
                          lastResponse := some (status, valid) }
            else if valid then
              ({ st with keyCalls := st.keyCalls + 1,
                         attempted := st.attempted ++ [tr.keyAt st.keyCalls],
                         fetches := st.fetches + 1,
                         lastResponse := some (status, valid) },
               .returned (some (status, valid)))
            else
              fetchLoop tr rem
                { st with keyCalls := st.keyCalls + 1,
                          attempted := st.attempted ++ [tr.keyAt st.keyCalls],
                          fetches := st.fetches + 1,
                          lastResponse := some (status, valid) }

/-- `fetchWithRetry(options)` with `maxRetries` attempts. -/
def fetchWithRetry (tr : RetryTrace) (maxRetries : Nat) :
    RetryState × RetryResult :=
  fetchLoop tr maxRetries initRetryState

/-- The retry loop as the spec sentence of claim C2 words it — a repeated
credential is skipped *without consuming one of the `maxAttempts` attempts*,
and only the skip loop itself is bounded by `maxAttempts`.  This definition
follows the spec's words and exists solely to be compared with `fetchLoop`,
which is translated from the source. -/
def fetchLoopSkipFree (tr : RetryTrace) (maxAttempts : Nat) :
    Nat → Nat → Nat → RetryState → RetryState × RetryResult
  | 0, _, _, st => (st, .returned st.lastResponse)
  | fuel + 1, attempts, skips, st =>
      if maxAttempts ≤ attempts then (st, .returned st.lastResponse)
      else
        let k := tr.keyAt st.keyCalls
        let st := { st with keyCalls := st.keyCalls + 1 }
        if k ∈ st.attempted then
          if maxAttempts ≤ skips then (st, .returned st.lastResponse)
          else fetchLoopSkipFree tr maxAttempts fuel attempts (skips + 1)
                 { st with skipped := st.skipped + 1 }
        else
          let st := { st with attempted := st.attempted ++ [k] }
          match tr.fetchAt st.fetches with
          | .thrown =>
              let st := { st with fetches := st.fetches + 1 }
              if attempts + 1 = maxAttempts then (st, .threw)
              else fetchLoopSkipFree tr maxAttempts fuel (attempts + 1) skips st
          | .resp status valid =>
              let st := { st with fetches := st.fetches + 1,
                                  lastResponse := some (status, valid) }
              if status = 403 then
                fetchLoopSkipFree tr maxAttempts fuel (attempts + 1) skips
                  { st with removed := st.removed ++ [k] }
              else if status = 429 then
                fetchLoopSkipFree tr maxAttempts fuel (attempts + 1) skips st
              else if valid then
                (st, .returned (some (status, valid)))
              else
                fetchLoopSkipFree tr maxAttempts fuel (attempts + 1) skips st

/-- The claim-side executor: skip-free attempt budget, adequate fuel. -/
def fetchWithRetrySkipFree (tr : RetryTrace) (maxAttempts : Nat) :
    RetryState × RetryResult :=
  fetchLoopSkipFree tr maxAttempts (2 * maxAttempts + 1) 0 0 initRetryState

/-- C2 (counterexample).  With `maxRetries = 2`, a key pool that hands out
`"a"` twice and then `"b"`, and a first genuine attempt that fails
validation, the source executor consumes its second (and last) iteration on
the repeated-key skip and never tries `"b"`; under the claim's skip-free
reading the executor would go on to try `"b"` and succeed.  The skip
therefore does reduce the number of remaining genuine attempts. -/
theorem C2_counterexample :
    (fetchWithRetry
        ⟨fun k => if k < 2 then "a" else "b",
         fun j => if j = 0 then .resp 404 false else .resp 200 true⟩
        2).1.attempted = ["a"] ∧
    (fetchWithRetrySkipFree
        ⟨fun k => if k < 2 then "a" else "b",
         fun j => if j = 0 then .resp 404 false else .resp 200 true⟩
        2).1.attempted = ["a", "b"] ∧
    (["a"] : List String) ≠ ["a", "b"] := by
  refine ⟨?_, ?_, by decide⟩ <;> rfl

/-- A fresh key appended to a duplicate-free `usedKeys` keeps it
duplicate-free. -/
theorem nodup_concat_key {att : List String} {k : String} (hk : k ∉ att)
    (h : att.Nodup) : (att ++ [k]).Nodup := by
  simp [List.nodup_append, hk, h]

/-- Invariant of the source loop: every iteration — genuine or skip —
consumes the iteration budget, and a key is genuinely attempted at most
once. -/
theorem fetchLoop_bound (tr : RetryTrace) :
    ∀ (rem : Nat) (st : RetryState),
      (fetchLoop tr rem st).1.attempted.length +
          (fetchLoop tr rem st).1.skipped ≤
        st.attempted.length + st.skipped + rem ∧
      (st.attempted.Nodup → (fetchLoop tr rem st).1.attempted.Nodup) := by
  intro rem
  induction rem with
  | zero => intro st; simp [fetchLoop]
  | succ n ih =>
      rintro ⟨att, rmv, skp, kc, fc, lr⟩
      simp only [fetchLoop]
      by_cases hmem : tr.keyAt kc ∈ att
      · rw [if_pos hmem]
        have h := ih ⟨att, rmv, skp + 1, kc + 1, fc, lr⟩
        refine ⟨?_, fun hn => h.2 hn⟩
        have h1 := h.1
        simp only at h1 ⊢
        omega
      · rw [if_neg hmem]
        cases hf : tr.fetchAt fc with
        | thrown =>
            simp only []
            cases n with
            | zero =>
                rw [if_pos rfl]
                refine ⟨?_, fun hn => nodup_concat_key hmem hn⟩
                simp only [List.length_append, List.length_cons,
                  List.length_nil]
                omega
            | succ m =>
                rw [if_neg (Nat.succ_ne_zero m)]
                have h := ih ⟨att ++ [tr.keyAt kc], rmv, skp, kc + 1, fc + 1,
                  lr⟩
                refine ⟨?_, fun hn => h.2 (nodup_concat_key hmem hn)⟩
                have h1 := h.1
                simp only [List.length_append, List.length_cons,
                  List.length_nil] at h1 ⊢
                omega
        | resp status valid =>
            simp only []
            by_cases h403 : status = 403
            · rw [if_pos h403]
              have h := ih ⟨att ++ [tr.keyAt kc],
                rmv ++ [tr.keyAt kc], skp, kc + 1, fc + 1,
                some (status, valid)⟩
              refine ⟨?_, fun hn => h.2 (nodup_concat_key hmem hn)⟩
              have h1 := h.1
              simp only [List.length_append, List.length_cons,
                List.length_nil] at h1 ⊢
              omega
            · rw [if_neg h403]
              by_cases h429 : status = 429
              · rw [if_pos h429]
                have h := ih ⟨att ++ [tr.keyAt kc], rmv, skp, kc + 1, fc + 1,
                  some (status, valid)⟩
                refine ⟨?_, fun hn => h.2 (nodup_concat_key hmem hn)⟩
                have h1 := h.1
                simp only [List.length_append, List.length_cons,
                  List.length_nil] at h1 ⊢
                omega
              · rw [if_neg h429]
                cases valid with
                | true =>
                    rw [if_pos rfl]
                    refine ⟨?_, fun hn => nodup_concat_key hmem hn⟩
                    simp only [List.length_append, List.length_cons,
                      List.length_nil]
                    omega
                | false =>
                    rw [if_neg (by decide : ¬false = true)]
                    have h := ih ⟨att ++ [tr.keyAt kc], rmv, skp, kc + 1,
                      fc + 1, some (status, false)⟩
                    refine ⟨?_, fun hn => h.2 (nodup_concat_key hmem hn)⟩
                    have h1 := h.1
                    simp only [List.length_append, List.length_cons,
                      List.length_nil] at h1 ⊢
                    omega

/-- C2 (amended).  In the source executor each skipped repeated credential
consumes one of the `maxRetries` loop iterations — genuine attempts and
skips together never exceed `maxRetries` — and no credential is genuinely
attempted twice in one call. -/
theorem C2_amended (tr : RetryTrace) (maxRetries : Nat) :
    (fetchWithRetry tr maxRetries).1.attempted.length +
        (fetchWithRetry tr maxRetries).1.skipped ≤ maxRetries ∧
    (fetchWithRetry tr maxRetries).1.attempted.Nodup := by
  have h := fetchLoop_bound tr maxRetries initRetryState
  refine ⟨?_, h.2 (by simp [initRetryState])⟩
  have h1 := h.1
  simpa [fetchWithRetry, initRetryState] using h1

/-! ## Credential selection (`src/src/core/api-key-manager.js`)

`ApiKeyManager.getNextKey`: `keys` is the list returned by `cache.load`
(`_loadFromRedis` rejects an empty load, though `removeKey` may shrink the
cached list afterwards), `prevCounter` is `this.counters.get(indexKey) || 0`
— possibly a stale value larger than the current list.  The `redis.set`
persistence is fire-and-forget (`Promise.resolve().then(...)`) with failure
only logged, so the model records just its trigger condition
(`counter % counterSyncInterval === 0` with `counterSyncInterval = 100`). -/

structure GetNextKeyResult where
  selectedKey : String
  counter : Nat
  persistTriggered : Bool
deriving DecidableEq, Repr

/-- `ApiKeyManager.getNextKey` (JS `keys[counter]` yields `undefined` out of
bounds; the default `""` is unreachable for a non-empty list). -/
def getNextKey (prevCounter : Nat) (keys : List String) : GetNextKeyResult :=
  let counter := (prevCounter + 1) % keys.length
  { selectedKey := keys.getD counter ""
    counter := counter
    persistTriggered := counter % 100 == 0 }

/-- `n` consecutive selections starting from stored counter `c`, threading
the per-`indexKey` counter map. -/
def runSelections (keys : List String) : Nat → Nat → List GetNextKeyResult
  | 0, _ => []
  | n + 1, c =>
      let r := getNextKey c keys
      r :: runSelections keys n r.counter

/-- C5 (counterexample).  With a pool of three credentials the persistence
write is triggered on the 3rd selection (the updated counter wraps to 0 and
`0 % 100 === 0`) and *not* on the 100th selection (whose updated counter is
`100 % 3 = 1`): persistence is tied to the counter value after reduction
modulo the pool size, not to every 100th selection. -/
theorem C5_counterexample :
    ((runSelections ["k1", "k2", "k3"] 100 0).getD 2
        ⟨"", 0, false⟩).persistTriggered = true ∧
    ¬((2 + 1) % 100 = 0) ∧
    ((runSelections ["k1", "k2", "k3"] 100 0).getD 99
        ⟨"", 0, false⟩).persistTriggered = false ∧
    (99 + 1) % 100 = 0 := by
  refine ⟨by decide, by decide, ?_, by decide⟩
  decide

/-- C5 (amended).  Each selection advances the process-local counter by
`counter := (counter + 1) mod |values|` and returns `values[counter]`; the
best-effort persistence of the counter is triggered exactly when the updated
(already reduced) counter is divisible by 100 — for pools of at most 100
credentials this means whenever the counter wraps to 0, i.e. every
`|values|`-th selection rather than every 100th.  The persistence write is
fire-and-forget and its outcome does not enter the selection result. -/
theorem C5_amended (prevCounter : Nat) (keys : List String)
    (h : keys ≠ []) :
    (getNextKey prevCounter keys).counter =
      (prevCounter + 1) % keys.length ∧
    (getNextKey prevCounter keys).selectedKey =
      keys.getD ((prevCounter + 1) % keys.length) "" ∧
    ((getNextKey prevCounter keys).persistTriggered = true ↔
      (prevCounter + 1) % keys.length % 100 = 0) := by
  refine ⟨rfl, rfl, ?_⟩
  simp [getNextKey]

/-- C5 (witness): the amended characterization evaluated for a pool of three
credentials and stored counter 7. -/
theorem C5_amended_witness :
    (["a", "b", "c"] : List String) ≠ [] ∧
    ((getNextKey 7 ["a", "b", "c"]).counter =
      (7 + 1) % (["a", "b", "c"] : List String).length ∧
    (getNextKey 7 ["a", "b", "c"]).selectedKey =
      (["a", "b", "c"] : List String).getD
        ((7 + 1) % (["a", "b", "c"] : List String).length) "" ∧
    ((getNextKey 7 ["a", "b", "c"]).persistTriggered = true ↔
      (7 + 1) % (["a", "b", "c"] : List String).length % 100 = 0)) :=
  ⟨by decide, C5_amended 7 ["a", "b", "c"] (by decide)⟩

/-- C10 (confirmed).  For a non-empty loaded values list and *any* stored
counter — including a stale counter left over from before an eviction shrank
the list — the selection index is reduced modulo the current length before
indexing, so it is in bounds and the returned credential is an element of
the current list (never the out-of-bounds `undefined`). -/
theorem C10_confirmed (prevCounter : Nat) (keys : List String)
    (h : keys ≠ []) :
    (getNextKey prevCounter keys).counter < keys.length ∧
    (getNextKey prevCounter keys).selectedKey ∈ keys := by
  have hlen : 0 < keys.length := List.length_pos.mpr h
  have hlt : (prevCounter + 1) % keys.length < keys.length :=
    Nat.mod_lt _ hlen
  refine ⟨hlt, ?_⟩
  simp only [getNextKey]
  rw [List.getD_eq_getElem _ _ hlt]
  exact List.getElem_mem hlt

/-- C10 (witness): a stale counter 7 against a two-element pool still selects
an element of the pool. -/
theorem C10_confirmed_witness :
    (["a", "b"] : List String) ≠ [] ∧
    ((getNextKey 7 ["a", "b"]).counter < (["a", "b"] : List String).length ∧
     (getNextKey 7 ["a", "b"]).selectedKey ∈ (["a", "b"] : List String)) :=
  ⟨by decide, C10_confirmed 7 ["a", "b"] (by decide)⟩

/-! ## Translation cache key (`src/src/services/cache-service.js`) -/

/-- The joined identifier
``` `${text}|${sourceLang || 'auto'}|${targetLang}` ```. -/
def cacheIdentifier (text : String) (sourceLang : Option String)
    (targetLang : String) : String :=
  text ++ "|" ++ jsOr sourceLang "auto" ++ "|" ++ targetLang

/-- `CacheService.generateCacheKey`.  The `keyCache` memoization stores
previously computed values of this pure function and is therefore dropped
from the embedding.  The branch condition is the JS
`cacheIdentifier.length < 100` — a UTF-16 code-unit count.  The string
`"translation:"` is `REDIS_KEYS.TRANSLATION_CACHE_PREFIX`. -/
def generateCacheKey (text : String) (sourceLang : Option String)
    (targetLang : String) : String :=
  let ident := cacheIdentifier text sourceLang targetLang
  if utf16Length ident < 100 then
    "translation:" ++ base64url (utf8Encode ident)
  else
    "translation:" ++ hexOfBytes (sha1 (utf8Encode ident))

/-- C4 (counterexample).  Two triples that differ componentwise but share the
joined identifier `"a|b|c|d"` collide, because the `'|'` separator is not
escaped; likewise a `null` source language and the literal `"auto"` collide.
The claimed injectivity of `generateCacheKey` fails. -/
theorem C4_counterexample :
    generateCacheKey "a" (some "b|c") "d" =
      generateCacheKey "a|b" (some "c") "d" ∧
    ("a" : String) ≠ "a|b" ∧
    generateCacheKey "x" none "de" = generateCacheKey "x" (some "auto") "de" ∧
    (none : Option String) ≠ some "auto" := by
  exact ⟨rfl, by decide, rfl, by decide⟩

/-- C4 (amended).  `generateCacheKey` is a total pure function that depends
on its triple only through the joined identifier
`text|sourceLang-or-'auto'|targetLang`: triples with equal identifiers —
equal triples in particular, but also triples that differ yet join to the
same identifier (a `'|'` inside the text, or `null`/`""`/`"auto"` source
languages) — always receive equal keys, so equality of keys is decided by
the identifier and the claimed componentwise injectivity does not hold. -/
theorem C4_amended (t1 : String) (s1 : Option String) (g1 t2 : String)
    (s2 : Option String) (g2 : String)
    (h : cacheIdentifier t1 s1 g1 = cacheIdentifier t2 s2 g2) :
    generateCacheKey t1 s1 g1 = generateCacheKey t2 s2 g2 := by
  simp only [generateCacheKey, h]

/-- C4 (witness): the identifier congruence evaluated at the null-source
versus `"auto"`-source pair. -/
theorem C4_amended_witness :
    cacheIdentifier "x" none "de" = cacheIdentifier "x" (some "auto") "de" ∧
    generateCacheKey "x" none "de" = generateCacheKey "x" (some "auto") "de" :=
  ⟨by decide, C4_amended "x" none "de" "x" (some "auto") "de" (by decide)⟩

/-- C8 (counterexample).  For a text of 32 three-byte characters (U+20AC)
the joined identifier has 40 UTF-16 code units but 104 UTF-8 bytes: the
byte length is at least 100, yet the code takes the base64 branch — the
branch condition is a code-unit count, not the byte-length test the claim
states, so the claimed SHA-1 key is not produced. -/
theorem C8_counterexample :
    100 ≤ (utf8Encode (cacheIdentifier
        (String.mk (List.replicate 32 (Char.ofNat 8364))) none "fr")).length ∧
    generateCacheKey (String.mk (List.replicate 32 (Char.ofNat 8364)))
        none "fr" =
      "translation:" ++ base64url (utf8Encode (cacheIdentifier
        (String.mk (List.replicate 32 (Char.ofNat 8364))) none "fr")) ∧
    generateCacheKey (String.mk (List.replicate 32 (Char.ofNat 8364)))
        none "fr" ≠
      "translation:" ++ hexOfBytes (sha1 (utf8Encode (cacheIdentifier
        (String.mk (List.replicate 32 (Char.ofNat 8364))) none "fr"))) := by
  refine ⟨by decide, rfl, by decide⟩

/-- C8 (amended).  The branch condition is the UTF-16 code-unit length of
the joined identifier: when it is below 100 the key is the `translation:`
prefix followed by the url-safe unpadded base64 of the identifier's UTF-8
bytes, and otherwise the prefix followed by the hex SHA-1 digest of those
bytes.  For texts whose characters are all single-byte the two length
measures agree, but for multi-byte characters the byte-length reading of
the claim diverges from the code. -/
theorem C8_amended (text : String) (sourceLang : Option String)
    (targetLang : String) :
    (utf16Length (cacheIdentifier text sourceLang targetLang) < 100 →
      generateCacheKey text sourceLang targetLang =
        "translation:" ++ base64url (utf8Encode
          (cacheIdentifier text sourceLang targetLang))) ∧
    (100 ≤ utf16Length (cacheIdentifier text sourceLang targetLang) →
      generateCacheKey text sourceLang targetLang =
        "translation:" ++ hexOfBytes (sha1 (utf8Encode
          (cacheIdentifier text sourceLang targetLang)))) := by
  constructor
  · intro h
    simp only [generateCacheKey]
    rw [if_pos h]
  · intro h
    simp only [generateCacheKey]
    rw [if_neg (by omega)]

/-- C8 (witness): the short-identifier branch evaluated at
`("hi", null, "es")`. -/
theorem C8_amended_witness :
    utf16Length (cacheIdentifier "hi" none "es") < 100 ∧
    generateCacheKey "hi" none "es" =
      "translation:" ++ base64url (utf8Encode (cacheIdentifier "hi" none
        "es")) :=
  ⟨by decide, (C8_amended "hi" none "es").1 (by decide)⟩

/-! ## Request fingerprint (`src/src/core/request-handler.js`)

`generateRequestKey(request)`: `href` and `pathname` come from
`new URL(request.url)`; `hasBody` is the truthiness of `request.body`;
`bodyText = some t` models `await request.clone().text()` resolving to `t`
and `none` a null body or a failing read; `now` is `Date.now()`. -/

structure DedupRequest where
  href : String
  pathname : String
  method : String
  hasBody : Bool
  bodyText : Option String

/-- `generateRequestKey`.  Note that the SHA-1 is taken over the string
``` `${method}:${pathname}:${bodyText}` ```, not over the body alone. -/
def generateRequestKey (r : DedupRequest) (now : Nat) : String :=
  if r.method = "GET" ∨ r.method = "HEAD" then
    r.method ++ ":" ++ r.href
  else if r.method = "POST" ∧ r.hasBody = true then
    match r.bodyText with
    | some bodyText =>
        r.method ++ ":" ++ r.pathname ++ ":" ++
          hexOfBytes (sha1 (utf8Encode
            (r.method ++ ":" ++ r.pathname ++ ":" ++ bodyText)))
    | none => r.method ++ ":" ++ r.pathname ++ ":" ++ toString now
  else
    r.method ++ ":" ++ r.pathname ++ ":" ++ toString now

/-- The idempotent HTTP verbs, as the claim's wording quantifies over them. -/
def isIdempotentMethod (m : String) : Bool :=
  m == "GET" || m == "HEAD" || m == "PUT" || m == "DELETE" ||
  m == "OPTIONS" || m == "TRACE"

/-- Claim C6 as stated: `METHOD:URL` for every idempotent verb,
`METHOD:PATH:hex(SHA-1(body))` for every POST whose body can be read, and
the time-salted fallback exactly when the body cannot be read. -/
def requestKeyClaim : Prop :=
  ∀ (r : DedupRequest) (now : Nat),
    (isIdempotentMethod r.method = true →
      generateRequestKey r now = r.method ++ ":" ++ r.href) ∧
    (r.method = "POST" → ∀ t, r.bodyText = some t →
      generateRequestKey r now =
        r.method ++ ":" ++ r.pathname ++ ":" ++
          hexOfBytes (sha1 (utf8Encode t))) ∧
    (generateRequestKey r now =
        r.method ++ ":" ++ r.pathname ++ ":" ++ toString now →
      r.bodyText = none)

/-- C6 (counterexample).  A `PUT` request with a perfectly readable body
refutes the claim: `PUT` is an idempotent verb, yet the code computes the
time-salted fallback `PUT:/p:5` instead of `PUT:https://h/p` — only `GET`
and `HEAD` take the `METHOD:URL` form, and the fallback is not reserved for
unreadable bodies. -/
theorem C6_counterexample : ¬ requestKeyClaim := by
  intro hcl
  have h := hcl ⟨"https://h/p", "/p", "PUT", true, some "b"⟩ 5
  have h1 := h.1 (by decide)
  have he : generateRequestKey ⟨"https://h/p", "/p", "PUT", true, some "b"⟩ 5
      = "PUT:/p:5" := rfl
  rw [he] at h1
  exact absurd h1 (by decide)

/-- C6 (amended).  The fingerprint is `METHOD:URL` exactly for `GET` and
`HEAD`; for a `POST` with a present, readable body it is
`METHOD:PATH:hex(SHA-1(METHOD:PATH:body))` (the digest covers method and
path as well as the body); in every other case — non-`POST` non-`GET`/`HEAD`
verbs included, readable body or not, and a `POST` whose body is absent or
unreadable — it is the time-salted `METHOD:PATH:timestamp` fallback. -/
theorem C6_amended (r : DedupRequest) (now : Nat) :
    ((r.method = "GET" ∨ r.method = "HEAD") →
      generateRequestKey r now = r.method ++ ":" ++ r.href) ∧
    (r.method = "POST" → r.hasBody = true → ∀ t, r.bodyText = some t →
      generateRequestKey r now =
        r.method ++ ":" ++ r.pathname ++ ":" ++
          hexOfBytes (sha1 (utf8Encode
            (r.method ++ ":" ++ r.pathname ++ ":" ++ t)))) ∧
    (¬(r.method = "GET" ∨ r.method = "HEAD") →
      (¬(r.method = "POST" ∧ r.hasBody = true) ∨ r.bodyText = none) →
      generateRequestKey r now =
        r.method ++ ":" ++ r.pathname ++ ":" ++ toString now) := by
  refine ⟨?_, ?_, ?_⟩
  · intro h
    simp only [generateRequestKey]
    rw [if_pos h]
  · intro hm hb t ht
    simp only [generateRequestKey]
    rw [if_neg (by rw [hm]; decide), if_pos ⟨hm, hb⟩, ht]
  · intro h1 h2
    simp only [generateRequestKey]
    rw [if_neg h1]
    rcases h2 with h2 | h2
    · rw [if_neg h2]
    · split_ifs with hp
      · rw [h2]
      · rfl

/-- C6 (witness): the amended characterization evaluated at a concrete
`GET` request and at a concrete `PUT` request. -/
theorem C6_amended_witness :
    ((("GET" : String) = "GET" ∨ ("GET" : String) = "HEAD") ∧
      generateRequestKey ⟨"https://h/x", "/x", "GET", false, none⟩ 3 =
        "GET" ++ ":" ++ "https://h/x") ∧
    (¬(("PUT" : String) = "GET" ∨ ("PUT" : String) = "HEAD") ∧
      generateRequestKey ⟨"https://h/p", "/p", "PUT", true, some "b"⟩ 5 =
        "PUT" ++ ":" ++ "/p" ++ ":" ++ toString 5) :=
  ⟨⟨Or.inl rfl,
    (C6_amended ⟨"https://h/x", "/x", "GET", false, none⟩ 3).1 (Or.inl rfl)⟩,
   ⟨by decide,
    (C6_amended ⟨"https://h/p", "/p", "PUT", true, some "b"⟩ 5).2.2
      (by decide) (Or.inl (by decide))⟩⟩

/-! ## Auth-key extraction (`src/src/utils/auth.js`) -/

/-- Accumulator-style splitting for JS `s.split(sep)` with a one-character
separator. -/
def splitCharAux (sep : Char) : List Char → List Char → List String
  | [], acc => [String.mk acc.reverse]
  | c :: rest, acc =>
      if c = sep then String.mk acc.reverse :: splitCharAux sep rest []
      else splitCharAux sep rest (c :: acc)

/-- JS `s.split(sep)` for a one-character separator. -/
def jsSplit (sep : Char) (s : String) : List String :=
  splitCharAux sep s.data []

/-- JS `s.startsWith(p)`. -/
def jsStartsWith (s p : String) : Bool :=
  p.data.isPrefixOf s.data

/-- `parts[2] || ''` for `const parts = pathname.split('/')`. -/
def pathKeyOf (pathname : String) : String :=
  (jsSplit (Char.ofNat 47) pathname).getD 2 ""

/-- Head-of-list whitespace test used by the `\s+` requirement. -/
def headIsJsWhitespace : List Char → Bool
  | c :: _ => isJsWhitespace c
  | [] => false

/-- `authHeader.replace(BEARER_PREFIX_REGEX, '')` with
`BEARER_PREFIX_REGEX = /^Bearer\s+/i`: a case-insensitive leading `Bearer`
followed by at least one whitespace character is removed, the greedy `\s+`
taking all of the following whitespace with it; otherwise the string is
unchanged. -/
def stripBearer (s : String) : String :=
  let cs := s.data
  if (cs.take 6).map toLowerAscii = "bearer".data ∧
      headIsJsWhitespace (cs.drop 6) = true then
    String.mk ((cs.drop 6).dropWhile isJsWhitespace)
  else s

/-- The `Authorization`-header leg of `extractAuthKey`: strip the Bearer
prefix, trim, return the result when non-empty, else fall out to `''`. -/
def extractFromAuthorization : Option String → String
  | some a =>
      let key := jsTrim (stripBearer a)
      if key ≠ "" then key else ""
  | none => ""

structure AuthRequest where
  pathname : String
  method : String
  xGoogApiKey : Option String
  authorization : Option String

/-- `extractAuthKey(request)`.  The path candidate is returned (trimmed)
whenever the raw `parts[2]` is non-empty; the `x-goog-api-key` candidate is
returned (trimmed) whenever the raw header value is non-empty (`headers.get`
returning null is `none`); only then is the `Authorization` header
consulted. -/
def extractAuthKey (r : AuthRequest) : String :=
  if jsStartsWith r.pathname "/translate/" = true ∧ r.method = "POST" ∧
      pathKeyOf r.pathname ≠ "" then
    jsTrim (pathKeyOf r.pathname)
  else
    match r.xGoogApiKey with
    | some g =>
        if g ≠ "" then jsTrim g
        else extractFromAuthorization r.authorization
    | none => extractFromAuthorization r.authorization

/-- Claim C7's reading of the extractor: every candidate — the path key,
then `x-goog-api-key`, then `Authorization` with the Bearer prefix
stripped — is whitespace-trimmed, a candidate that is empty (or trims to
empty) counts as absent, and the first present candidate wins.  This
definition follows the claim's words and exists solely for comparison with
`extractAuthKey`, which is translated from the source. -/
def extractAuthKeyClaim (r : AuthRequest) : String :=
  let c1 :=
    if jsStartsWith r.pathname "/translate/" = true ∧ r.method = "POST" then
      jsTrim (pathKeyOf r.pathname)
    else ""
  if c1 ≠ "" then c1
  else
    let c2 := jsTrim (r.xGoogApiKey.getD "")
    if c2 ≠ "" then c2
    else jsTrim (stripBearer (r.authorization.getD ""))

/-- C7 (counterexample).  A request carrying a whitespace-only
`x-goog-api-key` header and a valid `Authorization: Bearer abc` header
refutes the claim: the code tests the raw header for emptiness *before*
trimming, so it accepts the whitespace-only candidate, returns the empty
string, and never consults the `Authorization` header — while the claim's
first-non-empty-after-trimming reading would return `"abc"`. -/
theorem C7_counterexample :
    extractAuthKey ⟨"/x", "POST", some " ", some "Bearer abc"⟩ = "" ∧
    extractAuthKeyClaim ⟨"/x", "POST", some " ", some "Bearer abc"⟩ =
      "abc" ∧
    ("" : String) ≠ "abc" := by
  refine ⟨rfl, rfl, by decide⟩

/-- C7 (amended).  The extraction order path → `x-goog-api-key` →
`Authorization` holds, with each returned candidate trimmed; but the first
two sources are tested for presence on their *raw* values, so a
whitespace-only path segment or `x-goog-api-key` value is consumed and
yields the empty string without any later source being consulted.  Only the
`Authorization` candidate is tested after stripping and trimming (and after
it nothing remains, so the result is empty either way). -/
theorem C7_amended (r : AuthRequest) :
    (jsStartsWith r.pathname "/translate/" = true → r.method = "POST" →
      pathKeyOf r.pathname ≠ "" →
      extractAuthKey r = jsTrim (pathKeyOf r.pathname)) ∧
    (¬(jsStartsWith r.pathname "/translate/" = true ∧ r.method = "POST" ∧
        pathKeyOf r.pathname ≠ "") →
      (∀ g, r.xGoogApiKey = some g → g ≠ "" →
        extractAuthKey r = jsTrim g) ∧
      ((r.xGoogApiKey = none ∨ r.xGoogApiKey = some "") →
        (∀ a, r.authorization = some a →
          extractAuthKey r = jsTrim (stripBearer a)) ∧
        (r.authorization = none → extractAuthKey r = ""))) := by
  constructor
  · intro h1 h2 h3
    simp only [extractAuthKey]
    rw [if_pos ⟨h1, h2, h3⟩]
  · intro hn
    simp only [extractAuthKey]
    rw [if_neg hn]
    constructor
    · intro g hg hge
      rw [hg]
      simp only []
      rw [if_pos hge]
    · intro hgoog
      constructor
      · intro a ha
        rcases hgoog with h | h <;>
          rw [h, ha] <;>
          simp only [extractFromAuthorization] <;>
          split_ifs with hk <;>
          simp_all
      · intro ha
        rcases hgoog with h | h <;>
          rw [h, ha] <;>
          rfl

/-- C7 (witness): the path leg of the amended characterization evaluated at
`POST /translate/k1`. -/
theorem C7_amended_witness :
    (jsStartsWith "/translate/k1" "/translate/" = true ∧
     ("POST" : String) = "POST" ∧ pathKeyOf "/translate/k1" ≠ "") ∧
    extractAuthKey ⟨"/translate/k1", "POST", none, none⟩ =
      jsTrim (pathKeyOf "/translate/k1") :=
  ⟨⟨by decide, rfl, by decide⟩,
   (C7_amended ⟨"/translate/k1", "POST", none, none⟩).1 (by decide) rfl
     (by decide)⟩

/-! ## Translation engine (`src/src/services/translation-service.js`)

`translateSingleText` / `translateBatch`.  The KV cache probe and the
upstream pipeline are oracles: `cache t` is the translation-cache record for
text `t` (covering both `cacheService.get` and the batch-wise
`cacheService.getMultiple`, which consult the same store), and `fetch t` is
the termination of the `fetchWithRetry` call issued for `t` — `.error ()`
when the final attempt rethrows (the call in `translateSingleText` is not
wrapped in try/catch), `.ok none` a null return, `.ok (some r)` a returned
response.  The `scheduleAsync` cache writes are fire-and-forget and do not
influence the returned records.  The semaphore only sequences execution. -/

structure TranslationRecord where
  detected_source_lang : String
  text : String
deriving DecidableEq, Repr

/-- Upstream response as `translateSingleText` observes it: `ok` is
`response.ok`; `parsed = none` models `response.json()` throwing,
`parsed = some none` a body whose
`candidates?.[0]?.content?.parts?.[0]?.text` path is undefined, and
`parsed = some (some t)` that path holding the string `t`. -/
structure UpstreamResponse where
  ok : Bool
  parsed : Option (Option String)
deriving DecidableEq, Repr

/-- The text the success path extracts, if any: the response must be `ok`,
parse, and hold a truthy (non-empty) `textFromApi`. -/
def extractedText (r : UpstreamResponse) : Option String :=
  if r.ok then
    match r.parsed with
    | some (some t) => if t ≠ "" then some t else none
    | _ => none
  else none

/-- `TranslationService.translateSingleText`. -/
def translateSingleText (text : String) (sourceLang : Option String)
    (cached : Option TranslationRecord)
    (fetchResult : Except Unit (Option UpstreamResponse)) :
    Except Unit TranslationRecord :=
  match cached with
  | some c => .ok c
  | none =>
      match fetchResult with
      | .error e => .error e
      | .ok resp =>
          match resp with
          | some r =>
              match extractedText r with
              | some t => .ok ⟨jsOr sourceLang "auto", jsTrim t⟩
              | none => .ok ⟨jsOr sourceLang "unknown", text⟩
          | none => .ok ⟨jsOr sourceLang "unknown", text⟩

/-- JS `[...new Set(textList)]`: first-occurrence deduplication. -/
def jsDedup (l : List String) : List String :=
  l.foldl (fun acc t => if t ∈ acc then acc else acc ++ [t]) []

/-- `uniqueTexts.filter(text => !cachedTranslations.has(text))`. -/
def textsToTranslate (textList : List String)
    (cache : String → Option TranslationRecord) : List String :=
  (jsDedup textList).filter (fun t => (cache t).isNone)

/-- `Promise.all`: all fulfilled, or the batch rejects. -/
def promiseAll {α : Type} : List (Except Unit α) → Except Unit (List α)
  | [] => .ok []
  | x :: xs =>
      match x with
      | .error e => .error e
      | .ok a =>
          match promiseAll xs with
          | .error e => .error e
          | .ok rest => .ok (a :: rest)

/-- The per-text lookup performed by the result-assembly loop: the extended
`cachedTranslations` map holds the cache hit for hit texts and the fresh
translation (associated positionally by `Promise.all`) for misses; a JS
`undefined` (unreachable) is modelled by the empty record. -/
def batchLookup (cache : String → Option TranslationRecord)
    (pairs : List (String × TranslationRecord)) (t : String) :
    TranslationRecord :=
  match cache t with
  | some rc => rc
  | none =>
      match pairs.find? (fun p => p.1 == t) with
      | some p => p.2
      | none => ⟨"", ""⟩

/-- `TranslationService.translateBatch`: dedup, cache probe, per-miss
translation under `Promise.all`, and order-preserving assembly (the
`textToIndices` loop writes, for every position `i`, the record of
`textList[i]` — extensionally the map below). -/
def translateBatch (textList : List String) (sourceLang : Option String)
    (cache : String → Option TranslationRecord)
    (fetch : String → Except Unit (Option UpstreamResponse)) :
    Except Unit (List TranslationRecord) :=
  let toTranslate := textsToTranslate textList cache
  match promiseAll (toTranslate.map (fun t =>
      translateSingleText t sourceLang (cache t) (fetch t))) with
  | .error e => .error e
  | .ok translations =>
      .ok (textList.map (batchLookup cache (toTranslate.zip translations)))

/-- C3 (counterexample).  A batch `["x", "y"]` in which the translation of
`"y"` ends in a final-attempt throw rejects as a whole — no record is
produced for `"y"` *or* for the successfully translated `"x"` — and a
non-thrown failure with `sourceLang = "en"` yields
`detected_source_lang = "en"`, not `"unknown"`.  Both refute the claim that
every failed text yields an original-text record with source `"unknown"`
while the rest of the batch is still returned. -/
theorem C3_counterexample :
    translateBatch ["x", "y"] none (fun _ => none)
        (fun t => if t = "y" then .error () else
          .ok (some ⟨true, some (some "X")⟩)) = .error () ∧
    translateSingleText "t" (some "en") none (.ok none) =
      .ok ⟨"en", "t"⟩ ∧
    ("en" : String) ≠ "unknown" := by
  refine ⟨rfl, rfl, by decide⟩

/-- C3 (amended).  A translation failure in which the retry executor
*completes* — it returns null or a response that is not ok, does not parse,
or holds no truthy extracted text — yields the fallback record whose `text`
is the original input and whose `detected_source_lang` is the request's
source language, or `"unknown"` when none was given; and a batch whose
per-miss executor calls all complete returns a record list (no rejection).
A final-attempt throw, however, propagates out of `translateSingleText` and
rejects the whole batch. -/
theorem C3_amended :
    (∀ (text : String) (sourceLang : Option String)
        (r : Option UpstreamResponse),
      (r = none ∨ ∃ u, r = some u ∧ extractedText u = none) →
      translateSingleText text sourceLang none (.ok r) =
        .ok ⟨jsOr sourceLang "unknown", text⟩) ∧
    (∀ (textList : List String) (sourceLang : Option String)
        (cache : String → Option TranslationRecord)
        (fetch : String → Except Unit (Option UpstreamResponse)),
      (∀ t, fetch t ≠ .error ()) →
      ∃ results,
        translateBatch textList sourceLang cache fetch = .ok results) := by
  constructor
  · intro text sourceLang r hr
    rcases hr with rfl | ⟨u, rfl, hu⟩
    · rfl
    · simp only [translateSingleText, hu]
  · intro textList sourceLang cache fetch hfetch
    have hall : ∀ (ts : List String), ∃ rs,
        promiseAll (ts.map (fun t =>
          translateSingleText t sourceLang (cache t) (fetch t))) = .ok rs := by
      intro ts
      induction ts with
      | nil => exact ⟨[], rfl⟩
      | cons t ts ih =>
          obtain ⟨rs, hrs⟩ := ih
          have hok : ∃ r, translateSingleText t sourceLang (cache t)
              (fetch t) = .ok r := by
            cases hc : cache t with
            | some c => exact ⟨c, by simp [translateSingleText, hc]⟩
            | none =>
                cases hf : fetch t with
                | error e => exact absurd (by cases e; exact hf) (hfetch t)
                | ok resp =>
                    cases resp with
                    | none =>
                        exact ⟨⟨jsOr sourceLang "unknown", t⟩,
                          by simp [translateSingleText, hc, hf]⟩
                    | some u =>
                        cases hu : extractedText u with
                        | none =>
                            exact ⟨⟨jsOr sourceLang "unknown", t⟩,
                              by simp [translateSingleText, hc, hf, hu]⟩
                        | some t0 =>
                            exact ⟨⟨jsOr sourceLang "auto", jsTrim t0⟩,
                              by simp [translateSingleText, hc, hf, hu]⟩
          obtain ⟨r, hr⟩ := hok
          refine ⟨r :: rs, ?_⟩
          simp only [List.map_cons, promiseAll, hr, hrs]
    obtain ⟨rs, hrs⟩ := hall (textsToTranslate textList cache)
    refine ⟨textList.map (batchLookup cache
      ((textsToTranslate textList cache).zip rs)), ?_⟩
    simp only [translateBatch, hrs]

/-- C3 (witness): the single-text fallback evaluated at a concrete non-ok
response for the text `"hello"` with no source language. -/
theorem C3_amended_witness :
    ((some ⟨false, none⟩ : Option UpstreamResponse) = none ∨
      ∃ u, (some ⟨false, none⟩ : Option UpstreamResponse) = some u ∧
        extractedText u = none) ∧
    translateSingleText "hello" none none (.ok (some ⟨false, none⟩)) =
      .ok ⟨jsOr none "unknown", "hello"⟩ :=
  ⟨Or.inr ⟨⟨false, none⟩, rfl, rfl⟩,
   C3_amended.1 "hello" none (some ⟨false, none⟩)
     (Or.inr ⟨⟨false, none⟩, rfl, rfl⟩)⟩

/-- The dedup fold keeps its accumulator duplicate-free. -/
theorem foldlDedup_nodup :
    ∀ (l acc : List String), acc.Nodup →
      (l.foldl (fun acc t => if t ∈ acc then acc else acc ++ [t])
        acc).Nodup := by
  intro l
  induction l with
  | nil => intro acc h; simpa using h
  | cons t l ih =>
      intro acc h
      simp only [List.foldl_cons]
      split_ifs with hmem
      · exact ih acc h
      · exact ih _ (nodup_concat_key hmem h)

/-- Everything in the input (or already accumulated) survives the dedup
fold. -/
theorem mem_foldlDedup :
    ∀ (l acc : List String) (t : String), t ∈ acc ∨ t ∈ l →
      t ∈ l.foldl (fun acc t => if t ∈ acc then acc else acc ++ [t]) acc := by
  intro l
  induction l with
  | nil => intro acc t h; simpa using h.resolve_right (by simp)
  | cons x l ih =>
      intro acc t h
      simp only [List.foldl_cons]
      split_ifs with hmem
      · refine ih acc t ?_
        rcases h with h | h
        · exact Or.inl h
        · rcases List.mem_cons.mp h with rfl | h
          · exact Or.inl hmem
          · exact Or.inr h
      · refine ih _ t ?_
        rcases h with h | h
        · exact Or.inl (List.mem_append_left _ h)
        · rcases List.mem_cons.mp h with rfl | h
          · exact Or.inl (List.mem_append_right _ (by simp))
          · exact Or.inr h

/-- `[...new Set(l)]` has no duplicates. -/
theorem jsDedup_nodup (l : List String) : (jsDedup l).Nodup :=
  foldlDedup_nodup l [] (by simp)

/-- `[...new Set(l)]` retains every element of `l`. -/
theorem mem_jsDedup {l : List String} {t : String} (h : t ∈ l) :
    t ∈ jsDedup l :=
  mem_foldlDedup l [] t (Or.inr h)

/-- When `Promise.all` over the per-text translations fulfils, every listed
text's translation fulfilled, and the positional `zip` association finds for
each text its own translation (the first matching pair). -/
theorem promiseAll_map_find (f : String → Except Unit TranslationRecord) :
    ∀ (ts : List String) (rs : List TranslationRecord),
      promiseAll (ts.map f) = .ok rs →
      ∀ t ∈ ts, ∃ r, f t = .ok r ∧
        (ts.zip rs).find? (fun p => p.1 == t) = some (t, r) := by
  intro ts
  induction ts with
  | nil => intro rs _ t ht; simp at ht
  | cons t0 ts ih =>
      intro rs h t ht
      simp only [List.map_cons, promiseAll] at h
      cases hf0 : f t0 with
      | error e => rw [hf0] at h; simp at h
      | ok a =>
          rw [hf0] at h
          cases hrest : promiseAll (ts.map f) with
          | error e => rw [hrest] at h; simp at h
          | ok rest =>
              rw [hrest] at h
              simp only [Except.ok.injEq] at h
              subst h
              by_cases hteq : t0 = t
              · subst hteq
                exact ⟨a, hf0, by simp [List.zip_cons_cons]⟩
              · rcases List.mem_cons.mp ht with rfl | ht'
                · exact absurd rfl hteq
                · obtain ⟨r, hr, hfind⟩ := ih rest hrest t ht'
                  refine ⟨r, hr, ?_⟩
                  rw [List.zip_cons_cons,
                    List.find?_cons_of_neg _ (by simp [hteq])]
                  exact hfind

/-- C9 (confirmed).  When `translateBatch` fulfils, it returns exactly one
record per input position; the record at position `i` is the one determined
by `textList[i]` alone — the cache hit for cached texts, the completed
`translateSingleText` result for misses — so duplicate texts (translated
once: the miss list is duplicate-free) receive identical records and the
positional correspondence is independent of the completion order of the
concurrent per-miss translations, which enter only through the positional
`Promise.all` association. -/
theorem C9_confirmed (textList : List String) (sourceLang : Option String)
    (cache : String → Option TranslationRecord)
    (fetch : String → Except Unit (Option UpstreamResponse))
    (results : List TranslationRecord)
    (hok : translateBatch textList sourceLang cache fetch = .ok results) :
    results.length = textList.length ∧
    (∀ i, i < textList.length →
      (∀ rc, cache (textList.getD i "") = some rc →
        results.getD i ⟨"", ""⟩ = rc) ∧
      (cache (textList.getD i "") = none →
        translateSingleText (textList.getD i "") sourceLang none
          (fetch (textList.getD i "")) =
          .ok (results.getD i ⟨"", ""⟩))) ∧
    (∀ i j, i < textList.length → j < textList.length →
      textList.getD i "" = textList.getD j "" →
      results.getD i ⟨"", ""⟩ = results.getD j ⟨"", ""⟩) ∧
    (textsToTranslate textList cache).Nodup := by
  have hnodup : (textsToTranslate textList cache).Nodup :=
    List.Nodup.filter _ (jsDedup_nodup textList)
  simp only [translateBatch] at hok
  cases hall : promiseAll ((textsToTranslate textList cache).map (fun t =>
      translateSingleText t sourceLang (cache t) (fetch t))) with
  | error e => rw [hall] at hok; simp at hok
  | ok translations =>
      rw [hall] at hok
      simp only [Except.ok.injEq] at hok
      subst hok
      have hlen : (textList.map (batchLookup cache
          ((textsToTranslate textList cache).zip translations))).length =
          textList.length := List.length_map _ _
      have hgetD : ∀ i, i < textList.length →
          (textList.map (batchLookup cache
            ((textsToTranslate textList cache).zip
              translations))).getD i ⟨"", ""⟩ =
          batchLookup cache
            ((textsToTranslate textList cache).zip translations)
            (textList.getD i "") := by
        intro i hi
        rw [List.getD_eq_getElem _ _ (by simpa using hi),
          List.getElem_map, List.getD_eq_getElem _ _ hi]
      refine ⟨hlen, ?_, ?_, hnodup⟩
      · intro i hi
        constructor
        · intro rc hc
          rw [hgetD i hi]
          simp only [batchLookup]
          rw [hc]
        · intro hc
          rw [hgetD i hi]
          have hmem : textList.getD i "" ∈ textsToTranslate textList cache := by
            refine List.mem_filter.mpr
              ⟨mem_jsDedup ?_, by simp only [hc, Option.isNone]⟩
            rw [List.getD_eq_getElem _ _ hi]
            exact List.getElem_mem hi
          obtain ⟨r, hr, hfind⟩ := promiseAll_map_find _ _ _ hall _ hmem
          rw [hc] at hr
          rw [hr]
          simp only [batchLookup]
          rw [hc, hfind]
      · intro i j hi hj hij
        rw [hgetD i hi, hgetD j hj, hij]

/-- C9 (witness): the batch `["cat", "cat", "dog"]` with `"cat"` cached and
`"dog"` translated upstream fulfils with three aligned records, the two
`"cat"` positions sharing the cached record. -/
theorem C9_confirmed_witness :
    translateBatch ["cat", "cat", "dog"] none
        (fun t => if t = "cat" then some ⟨"auto", "chat"⟩ else none)
        (fun _ => .ok (some ⟨true, some (some "chien")⟩)) =
      .ok [⟨"auto", "chat"⟩, ⟨"auto", "chat"⟩, ⟨"auto", "chien"⟩] ∧
    ([⟨"auto", "chat"⟩, ⟨"auto", "chat"⟩, ⟨"auto", "chien"⟩] :
        List TranslationRecord).length =
      (["cat", "cat", "dog"] : List String).length ∧
    (∀ i, i < (["cat", "cat", "dog"] : List String).length →
      (∀ rc, (fun t => if t = "cat" then some (⟨"auto", "chat"⟩ :
            TranslationRecord) else none)
          ((["cat", "cat", "dog"] : List String).getD i "") = some rc →
        ([⟨"auto", "chat"⟩, ⟨"auto", "chat"⟩, ⟨"auto", "chien"⟩] :
          List TranslationRecord).getD i ⟨"", ""⟩ = rc) ∧
      ((fun t => if t = "cat" then some (⟨"auto", "chat"⟩ :
            TranslationRecord) else none)
          ((["cat", "cat", "dog"] : List String).getD i "") = none →
        translateSingleText ((["cat", "cat", "dog"] : List String).getD i "")
          none none
          ((fun _ => .ok (some ⟨true, some (some "chien")⟩))
            ((["cat", "cat", "dog"] : List String).getD i "")) =
          .ok (([⟨"auto", "chat"⟩, ⟨"auto", "chat"⟩, ⟨"auto", "chien"⟩] :
            List TranslationRecord).getD i ⟨"", ""⟩))) ∧
    (∀ i j, i < (["cat", "cat", "dog"] : List String).length →
      j < (["cat", "cat", "dog"] : List String).length →
      (["cat", "cat", "dog"] : List String).getD i "" =
        (["cat", "cat", "dog"] : List String).getD j "" →
      ([⟨"auto", "chat"⟩, ⟨"auto", "chat"⟩, ⟨"auto", "chien"⟩] :
        List TranslationRecord).getD i ⟨"", ""⟩ =
      ([⟨"auto", "chat"⟩, ⟨"auto", "chat"⟩, ⟨"auto", "chien"⟩] :
        List TranslationRecord).getD j ⟨"", ""⟩) ∧
    (textsToTranslate ["cat", "cat", "dog"]
      (fun t => if t = "cat" then some ⟨"auto", "chat"⟩ else none)).Nodup :=
  ⟨rfl,
   C9_confirmed ["cat", "cat", "dog"] none
     (fun t => if t = "cat" then some ⟨"auto", "chat"⟩ else none)
     (fun _ => .ok (some ⟨true, some (some "chien")⟩))
     [⟨"auto", "chat"⟩, ⟨"auto", "chat"⟩, ⟨"auto", "chien"⟩] rfl⟩

end GeminiProxy
